import Mathlib

/-!
Shallow embedding of the command-safety gateway of `src/src-tauri/src/lib.rs`
(truthgit-desktop). Rust strings are modelled as `List Char`; Rust byte
buffers (captured process output) as `List Nat`. The validators are pure
functions of their input and the static tables, exactly as in the source.
Rejection messages built with `format!` in the source are modelled as
structured error values carrying the same data (the offending token or
pattern) that the source interpolates into the message.
-/

/-- Strings of the Rust source, modelled as lists of characters. -/
abbrev Str := List Char

/-- Substring test: `containsSeq needle hay` models Rust `hay.contains(needle)`
(literal substring search). -/
def containsSeq (needle : Str) : Str → Bool
  | [] => needle.isEmpty
  | c :: rest => needle.isPrefixOf (c :: rest) || containsSeq needle rest

/-- Whitespace predicate used by `str::trim` (ASCII fragment of Unicode
White_Space; the source strings involved are ASCII). -/
def isWhite (c : Char) : Bool := c = ' ' || c = '\t' || c = '\n' || c = '\r'

/-- Model of Rust `str::trim`: drop leading and trailing whitespace. -/
def trimStr (s : Str) : Str :=
  ((s.dropWhile isWhite).reverse.dropWhile isWhite).reverse

/-- ASCII fragment of Rust `char` lowercasing (the dangerous patterns are
all ASCII, so only the ASCII range matters for the scan). -/
def charLower (c : Char) : Char :=
  if 65 ≤ c.toNat && c.toNat ≤ 90 then Char.ofNat (c.toNat + 32) else c

/-- Model of Rust `str::to_lowercase`. -/
def lowerStr (s : Str) : Str := s.map charLower

/-- First whitespace-separated token, or the whole string when there is
none: models `command.split_whitespace().next().unwrap_or(&command)`. -/
def firstToken (s : Str) : Str :=
  let t := s.dropWhile isWhite
  if t = [] then s else t.takeWhile (fun c => ! isWhite c)

/-- `ALLOWED_TRUTHGIT_SUBCOMMANDS` from lib.rs (exact-match allowlist). -/
def ALLOWED_TRUTHGIT_SUBCOMMANDS : List Str :=
  ["status", "verify", "safe-verify", "prove", "search", "log", "show",
   "list", "version", "--version", "--help", "help"].map String.toList

/-- `BLOCKED_ARG_PATTERNS` from lib.rs (forbidden substrings in any arg). -/
def BLOCKED_ARG_PATTERNS : List Str :=
  [";", "&&", "||", "|", "`", "$(", "$\x7b", ">", "<", "\n", "\r"].map String.toList

/-- Structured form of the rejection messages of `validate_truthgit_args`. -/
inductive ArgError
  | noSubcommand
  | subcommandNotAllowed (subcommand : Str)
  | forbiddenPattern (pattern : Str)
deriving DecidableEq

/-- First blocked pattern found scanning args in order, patterns in order
(the source's nested `for arg in args \x7b for pattern in BLOCKED_ARG_PATTERNS`). -/
def findBlocked (args : List Str) : Option Str :=
  args.findSome? (fun a => BLOCKED_ARG_PATTERNS.find? (fun p => containsSeq p a))

/-- Model of `validate_truthgit_args` from lib.rs. -/
def validate_truthgit_args (args : List Str) : Except ArgError Unit :=
  match args with
  | [] => .error .noSubcommand
  | subcommand :: rest =>
    if ! ALLOWED_TRUTHGIT_SUBCOMMANDS.contains subcommand then
      .error (.subcommandNotAllowed subcommand)
    else
      match findBlocked (subcommand :: rest) with
      | some pattern => .error (.forbiddenPattern pattern)
      | none => .ok ()

/-- `DANGEROUS_PATTERNS` from lib.rs, in source order. -/
def DANGEROUS_PATTERNS : List Str :=
  ["rm -rf /", "rm -r /", "sudo rm -rf", "> /dev/sd", "mkfs", "dd if=",
   ":()\x7b:|:&\x7d;:", "chmod -R 777 /", "| bash", "| sh", "|bash", "|sh",
   "eval $(", "$(curl", "$(wget", "; rm ", "&& rm -rf", "| rm ", "`rm ",
   "sudo su", "sudo -i", "sudo bash"].map String.toList

/-- `ALLOWED_COMMAND_PREFIXES` from lib.rs, in source order. -/
def ALLOWED_COMMAND_PREFIXES : List Str :=
  ["truthgit", "ls", "pwd", "cat ", "head ", "tail ", "grep ", "find ",
   "echo ", "cd ", "git status", "git log", "git diff", "git branch",
   "git show", "pip list", "pip show", "python --version", "node --version",
   "npm list", "cargo --version", "rustc --version", "which ", "whereis ",
   "file ", "wc ", "date", "whoami", "hostname", "uname", "env",
   "printenv"].map String.toList

/-- `SHELL_OPERATORS` from lib.rs. -/
def SHELL_OPERATORS : List Str :=
  [";", "&&", "||", "|", "`", "$(", "$\x7b", "\n", "\r"].map String.toList

/-- The one safe-exception token of the dangerous-pattern scan. -/
def SAFE_EXCEPTION : Str := "> /dev/null".toList

/-- Model of `is_command_allowed` from lib.rs: trim, reject on any shell
operator, then accept when an allowlist entry is a literal prefix of the
trimmed string or the trimmed string equals the entry's trimmed form. -/
def is_command_allowed (command : Str) : Bool :=
  let cmd_trimmed := trimStr command
  if SHELL_OPERATORS.any (fun op => containsSeq op cmd_trimmed) then false
  else ALLOWED_COMMAND_PREFIXES.any
    (fun p => p.isPrefixOf cmd_trimmed || cmd_trimmed == trimStr p)

/-- Model of `contains_dangerous_pattern` from lib.rs: lowercase the whole
command; when the safe-exception token occurs, skip the scan entirely;
otherwise return the first dangerous pattern that is a substring. -/
def contains_dangerous_pattern (command : Str) : Option Str :=
  let cmd_lower := lowerStr command
  if containsSeq SAFE_EXCEPTION cmd_lower then none
  else DANGEROUS_PATTERNS.find? (fun pattern => containsSeq pattern cmd_lower)

/-- Structured form of the two warning messages of `check_command_safety`. -/
inductive Warning
  | dangerousPattern (pattern : Str)
  | notAllowed (token : Str)
deriving DecidableEq

/-- The `CommandCheck` struct from lib.rs. -/
structure CommandCheck where
  is_dangerous : Bool
  warning : Option Warning
deriving DecidableEq

/-- Model of `check_command_safety` from lib.rs (the Rust function always
returns `Ok`, so the `Result` wrapper is dropped). -/
def check_command_safety (command : Str) : CommandCheck :=
  match contains_dangerous_pattern command with
  | some pattern => { is_dangerous := true, warning := some (.dangerousPattern pattern) }
  | none =>
    if ! is_command_allowed command then
      { is_dangerous := true, warning := some (.notAllowed (firstToken command)) }
    else
      { is_dangerous := false, warning := none }

/-- Continuation-byte test of UTF-8 (0x80..0xBF). -/
def isCont (b : Nat) : Bool := 0x80 ≤ b && b ≤ 0xBF

/-- Lower bound of the second byte of a multi-byte UTF-8 sequence, per the
lead byte (0xE0 and 0xF0 exclude overlong encodings). -/
def cont2Lo (b : Nat) : Nat := if b = 0xE0 then 0xA0 else if b = 0xF0 then 0x90 else 0x80

/-- Upper bound of the second byte of a multi-byte UTF-8 sequence, per the
lead byte (0xED excludes surrogates, 0xF4 caps at U+10FFFF). -/
def cont2Hi (b : Nat) : Nat := if b = 0xED then 0x9F else if b = 0xF4 then 0x8F else 0xBF

/-- Range test for the second byte of a multi-byte sequence led by `b`. -/
def contOk2 (b c : Nat) : Bool := cont2Lo b ≤ c && c ≤ cont2Hi b

/-- UTF-8 validity of a byte sequence, as checked by Rust
`String::from_utf8` (rejects overlong forms, surrogates, and values above
U+10FFFF). -/
def utf8Valid : List Nat → Bool
  | [] => true
  | b :: rest =>
    if b ≤ 0x7F then utf8Valid rest
    else if 0xC2 ≤ b && b ≤ 0xDF then
      match rest with
      | c1 :: rest1 => isCont c1 && utf8Valid rest1
      | [] => false
    else if 0xE0 ≤ b && b ≤ 0xEF then
      match rest with
      | c1 :: c2 :: rest2 => contOk2 b c1 && isCont c2 && utf8Valid rest2
      | _ => false
    else if 0xF0 ≤ b && b ≤ 0xF4 then
      match rest with
      | c1 :: c2 :: c3 :: rest3 => contOk2 b c1 && isCont c2 && isCont c3 && utf8Valid rest3
      | _ => false
    else false

/-- The Unicode replacement character U+FFFD. -/
def repl : Char := Char.ofNat 0xFFFD

/-- Decode one UTF-8 sequence starting at lead byte `b` with remaining
bytes `rest`: the character produced and the number of bytes consumed.
An invalid sequence consumes its maximal valid subpart and produces
U+FFFD, as in Rust `String::from_utf8_lossy`. -/
def utf8Step (b : Nat) (rest : List Nat) : Char × Nat :=
  if b ≤ 0x7F then (Char.ofNat b, 1)
  else if 0xC2 ≤ b && b ≤ 0xDF then
    match rest with
    | c1 :: _ =>
      if isCont c1 then (Char.ofNat ((b - 0xC0) * 0x40 + (c1 - 0x80)), 2) else (repl, 1)
    | [] => (repl, 1)
  else if 0xE0 ≤ b && b ≤ 0xEF then
    match rest with
    | c1 :: c2 :: _ =>
      if contOk2 b c1 && isCont c2 then
        (Char.ofNat ((b - 0xE0) * 0x1000 + (c1 - 0x80) * 0x40 + (c2 - 0x80)), 3)
      else if contOk2 b c1 then (repl, 2) else (repl, 1)
    | [c1] => if contOk2 b c1 then (repl, 2) else (repl, 1)
    | [] => (repl, 1)
  else if 0xF0 ≤ b && b ≤ 0xF4 then
    match rest with
    | c1 :: c2 :: c3 :: _ =>
      if contOk2 b c1 && isCont c2 && isCont c3 then
        (Char.ofNat ((b - 0xF0) * 0x40000 + (c1 - 0x80) * 0x1000 + (c2 - 0x80) * 0x40 + (c3 - 0x80)), 4)
      else if contOk2 b c1 && isCont c2 then (repl, 3)
      else if contOk2 b c1 then (repl, 2)
      else (repl, 1)
    | [c1, c2] =>
      if contOk2 b c1 && isCont c2 then (repl, 3)
      else if contOk2 b c1 then (repl, 2) else (repl, 1)
    | [c1] => if contOk2 b c1 then (repl, 2) else (repl, 1)
    | [] => (repl, 1)
  else (repl, 1)

/-- Fuel-indexed UTF-8 lossy decoding loop; each step consumes at least
one byte, so fuel equal to the byte count never runs out. -/
def lossyDecodeAux : Nat → List Nat → Str
  | 0, _ => []
  | _, [] => []
  | fuel + 1, b :: rest =>
    (utf8Step b rest).1 :: lossyDecodeAux fuel (rest.drop ((utf8Step b rest).2 - 1))

/-- Model of Rust `String::from_utf8_lossy`: total decoding of a byte
sequence, substituting U+FFFD for each maximal invalid subpart. -/
def lossyDecodeList (l : List Nat) : Str := lossyDecodeAux l.length l

/-- The `ShellOutput` struct from lib.rs (decoded text plus exit status). -/
structure ShellOutput where
  stdout : Str
  stderr : Str
  exit_code : Int
  success : Bool
deriving DecidableEq

/-- Outcome of the OS-level spawn of an already-validated command: either
the process could not be created (the `Err` of `Command::output`), or it
ran to completion with an optional exit code (none when killed by a
signal) and raw output bytes. -/
inductive SpawnOutcome
  | failure (msg : Str)
  | completed (code : Option Int) (stdoutBytes stderrBytes : List Nat)

/-- Rust `ExitStatus::success`: termination with exit code zero. -/
def statusSuccess (code : Option Int) : Bool := code == some 0

/-- Structured form of the error strings returned by `execute_shell`. -/
inductive ShellError
  | dangerousPattern (pattern : Str)
  | notAllowed (token : Str)
  | spawnFailure (msg : Str)
deriving DecidableEq

/-- Pre-spawn validation errors of `execute_shell`, as opposed to the
spawn failure reported after validation passed. -/
def isPreSpawnError : ShellError → Bool
  | .spawnFailure _ => false
  | _ => true

/-- Model of `execute_shell` from lib.rs: dangerous-pattern check first,
then the allowlist check, then the spawn; the spawn's environment response
is the `outcome` parameter. Exit code falls back to the sentinel -1, and
both output streams are decoded lossily. -/
def execute_shell (command : Str) (outcome : SpawnOutcome) : Except ShellError ShellOutput :=
  match contains_dangerous_pattern command with
  | some pattern => .error (.dangerousPattern pattern)
  | none =>
    if ! is_command_allowed command then
      .error (.notAllowed (firstToken command))
    else
      match outcome with
      | .failure e => .error (.spawnFailure e)
      | .completed code out err =>
        .ok { stdout := lossyDecodeList out, stderr := lossyDecodeList err,
              exit_code := code.getD (-1), success := statusSuccess code }

/-- Structured form of the error strings returned by `run_truthgit_command`. -/
inductive TruthgitError
  | validation (e : ArgError)
  | spawnFailure (msg : Str)
  | invalidUtf8Output
  | truthgitFailed (stderrText : Str)
deriving DecidableEq

/-- Model of `run_truthgit_command` from lib.rs: validate the args, spawn
the tool, and on success decode stdout strictly — invalid UTF-8 there is a
hard error — while on a non-success status report the lossily decoded
stderr as the error. On valid input strict and lossy decoding agree, so
the `ok` value is the lossy decode guarded by validity. -/
def run_truthgit_command (args : List Str) (outcome : SpawnOutcome) : Except TruthgitError Str :=
  match validate_truthgit_args args with
  | .error e => .error (.validation e)
  | .ok _ =>
    match outcome with
    | .failure e => .error (.spawnFailure e)
    | .completed code out err =>
      if statusSuccess code then
        if utf8Valid out then .ok (lossyDecodeList out)
        else .error .invalidUtf8Output
      else .error (.truthgitFailed (lossyDecodeList err))

/-! Helper lemmas about the string primitives. -/

/-- Substring test agrees with the `IsInfix` relation. -/
theorem containsSeq_correct (needle hay : Str) :
    containsSeq needle hay = true ↔ needle <:+: hay := by
  induction hay with
  | nil => simp [containsSeq, List.isEmpty_iff, List.infix_nil]
  | cons c rest ih =>
    simp [containsSeq, Bool.or_eq_true, ih, List.infix_cons_iff,
      List.isPrefixOf_iff_prefix]

/-- Membership survives `dropWhile` when the predicate fails at the element. -/
theorem mem_dropWhile_of_neg {p : Char → Bool} {c : Char} (hc : p c = false) :
    ∀ {l : Str}, c ∈ l → c ∈ l.dropWhile p := by
  intro l hm
  induction l with
  | nil => cases hm
  | cons x xs ih =>
    rw [List.dropWhile_cons]
    by_cases hx : p x = true
    · simp [hx]
      rcases List.mem_cons.mp hm with rfl | h
      · rw [hc] at hx; cases hx
      · exact ih h
    · simp [Bool.not_eq_true] at hx
      simp [hx]
      exact List.mem_cons.mp hm

/-- A non-whitespace character of a string survives trimming. -/
theorem mem_trimStr {c : Char} {s : Str} (hc : isWhite c = false) (hm : c ∈ s) :
    c ∈ trimStr s := by
  unfold trimStr
  rw [List.mem_reverse]
  apply mem_dropWhile_of_neg hc
  rw [List.mem_reverse]
  exact mem_dropWhile_of_neg hc hm

/-- A singleton list is an infix of any list containing its element. -/
theorem singleton_infix_of_mem {c : Char} {l : Str} (h : c ∈ l) : [c] <:+: l := by
  obtain ⟨s, t, rfl⟩ := List.append_of_mem h
  exact ⟨s, t, by simp⟩

/-- Packing a small scalar into a `Char` round-trips through `toNat`. -/
theorem toNat_ofNat_of_small {n : Nat} (h : n < 55296) : (Char.ofNat n).toNat = n := by
  have hv : n.isValidChar := Or.inl h
  rw [Char.ofNat, dif_pos hv]
  rfl

/-- ASCII lowercasing is idempotent. -/
theorem charLower_idem (c : Char) : charLower (charLower c) = charLower c := by
  unfold charLower
  by_cases h : (65 ≤ c.toNat && c.toNat ≤ 90) = true
  · simp only [h, if_true]
    have hb := (Bool.and_eq_true _ _).mp h
    have h1 : 65 ≤ c.toNat := by simpa using hb.1
    have h2 : c.toNat ≤ 90 := by simpa using hb.2
    have ht : (Char.ofNat (c.toNat + 32)).toNat = c.toNat + 32 :=
      toNat_ofNat_of_small (by omega)
    rw [ht]
    have : ¬ (65 ≤ c.toNat + 32 && c.toNat + 32 ≤ 90) = true := by
      simp only [Bool.and_eq_true, decide_eq_true_eq]
      omega
    rw [if_neg this]
  · simp [h]

/-- Lowercasing a string twice is the same as lowercasing it once. -/
theorem lowerStr_idem (s : Str) : lowerStr (lowerStr s) = lowerStr s := by
  unfold lowerStr
  rw [List.map_map]
  exact List.map_congr_left (fun c _ => charLower_idem c)

/-! Claim theorems. -/

/-- C1: any input whose trimmed form contains a ShellOperatorSet member is
rejected by `is_command_allowed`, hence flagged dangerous by
`check_command_safety` and refused by `execute_shell` before any spawn,
even when the trimmed string also matches an allowed prefix. -/
theorem shell_operator_always_rejects (s op : Str)
    (hmem : op ∈ SHELL_OPERATORS) (hin : containsSeq op (trimStr s) = true) :
    is_command_allowed s = false
    ∧ (check_command_safety s).is_dangerous = true
    ∧ ∀ outcome, ∃ e, execute_shell s outcome = .error e := by
  have hany : SHELL_OPERATORS.any (fun o => containsSeq o (trimStr s)) = true :=
    List.any_eq_true.mpr ⟨op, hmem, hin⟩
  have hallow : is_command_allowed s = false := by
    unfold is_command_allowed
    simp only [hany, if_true]
  refine ⟨hallow, ?_, ?_⟩
  · cases hdp : contains_dangerous_pattern s with
    | some p => simp [check_command_safety, hdp]
    | none => simp [check_command_safety, hdp, hallow]
  · intro outcome
    cases hdp : contains_dangerous_pattern s with
    | some p => exact ⟨.dangerousPattern p, by simp [execute_shell, hdp]⟩
    | none => exact ⟨.notAllowed (firstToken s), by simp [execute_shell, hdp, hallow]⟩

/-- Witness for C1 at the spec's example: `"echo hello && rm file"` is
rejected even though `"echo "` is an allowed prefix of its trimmed form. -/
theorem shell_operator_always_rejects_witness :
    "&&".toList ∈ SHELL_OPERATORS
    ∧ "echo ".toList.isPrefixOf (trimStr "echo hello && rm file".toList) = true
    ∧ is_command_allowed "echo hello && rm file".toList = false :=
  ⟨by decide, by decide,
    (shell_operator_always_rejects "echo hello && rm file".toList "&&".toList
      (by decide) (by decide)).1⟩

/-- C3: whenever the safe-exception token `"> /dev/null"` occurs in the
lowercased command, `contains_dangerous_pattern` reports no pattern at
all — the entire scan is skipped. -/
theorem safe_exception_suppresses_scan (s : Str)
    (h : containsSeq SAFE_EXCEPTION (lowerStr s) = true) :
    contains_dangerous_pattern s = none := by
  unfold contains_dangerous_pattern
  simp [h]

/-- Witness for C3: `"rm -rf / > /dev/null"` contains the dangerous table
entry `"rm -rf /"`, yet the scan reports nothing. -/
theorem safe_exception_suppresses_scan_witness :
    containsSeq "rm -rf /".toList (lowerStr "rm -rf / > /dev/null".toList) = true
    ∧ "rm -rf /".toList ∈ DANGEROUS_PATTERNS
    ∧ contains_dangerous_pattern "rm -rf / > /dev/null".toList = none :=
  ⟨by decide, by decide,
    safe_exception_suppresses_scan "rm -rf / > /dev/null".toList (by decide)⟩

/-- C8: the dangerous-pattern scan is case-insensitive: it returns the same
verdict on a string and on its lowercased form, and both `"RM -RF /"` and
`"rm -rf /"` are flagged with the pattern `"rm -rf /"`. -/
theorem dangerous_scan_case_insensitive :
    (∀ s : Str, contains_dangerous_pattern (lowerStr s) = contains_dangerous_pattern s)
    ∧ contains_dangerous_pattern "RM -RF /".toList = some ("rm -rf /".toList)
    ∧ contains_dangerous_pattern "rm -rf /".toList = some ("rm -rf /".toList) := by
  refine ⟨?_, by decide, by decide⟩
  intro s
  unfold contains_dangerous_pattern
  rw [lowerStr_idem]

/-- C7: any command containing the fork-bomb literal is rejected pre-spawn
by both `check_command_safety` and `execute_shell` — even when the
safe-exception token also occurs and suppresses the dangerous-pattern
scan, because the literal contains the operator `;` which the allowlist
check refuses unconditionally. -/
theorem forkbomb_always_rejected (s : Str)
    (h : containsSeq ":()\x7b:|:&\x7d;:".toList s = true) :
    (check_command_safety s).is_dangerous = true
    ∧ ∀ outcome, ∃ e, execute_shell s outcome = .error e := by
  have hfork : ":()\x7b:|:&\x7d;:".toList <:+: s := (containsSeq_correct _ _).mp h
  have hsemi : ';' ∈ s := hfork.sublist.subset (by decide)
  have htrim : ';' ∈ trimStr s := mem_trimStr (by decide) hsemi
  have hin : containsSeq ";".toList (trimStr s) = true :=
    (containsSeq_correct _ _).mpr (singleton_infix_of_mem htrim)
  have hrej := shell_operator_always_rejects s ";".toList (by decide) hin
  exact ⟨hrej.2.1, hrej.2.2⟩

/-- Witness for C7: the fork bomb next to the safe-exception token is still
flagged dangerous by the read-only check. -/
theorem forkbomb_always_rejected_witness :
    containsSeq SAFE_EXCEPTION (lowerStr "echo :()\x7b:|:&\x7d;: > /dev/null".toList) = true
    ∧ (check_command_safety "echo :()\x7b:|:&\x7d;: > /dev/null".toList).is_dangerous = true :=
  ⟨by decide,
    (forkbomb_always_rejected "echo :()\x7b:|:&\x7d;: > /dev/null".toList (by decide)).1⟩

/-- C10: the verdict of `check_command_safety` carries a warning exactly
when it flags the command as dangerous. -/
theorem check_warning_iff_dangerous (s : Str) :
    ((check_command_safety s).warning).isSome = (check_command_safety s).is_dangerous := by
  unfold check_command_safety
  cases contains_dangerous_pattern s with
  | some p => rfl
  | none =>
    by_cases h : is_command_allowed s = true
    · simp [h]
    · simp [Bool.not_eq_true] at h
      simp [h]

/-- C2: `validate_truthgit_args` applies its rules in order — empty vector
rejects with the no-subcommand reason; a head outside the allowlist
rejects naming that token; otherwise any element containing a forbidden
substring rejects naming a pattern that does occur in some element; a
clean allowlisted vector accepts. `["status"]` accepts, `["init"]`
rejects as not allowlisted, and `["verify", "claim; rm -rf /"]` rejects
on the forbidden-pattern rule. -/
theorem validate_truthgit_args_ordered (args : List Str) :
    (args = [] → validate_truthgit_args args = .error .noSubcommand)
    ∧ (∀ sub rest, args = sub :: rest →
        (ALLOWED_TRUTHGIT_SUBCOMMANDS.contains sub = false →
          validate_truthgit_args args = .error (.subcommandNotAllowed sub))
        ∧ (ALLOWED_TRUTHGIT_SUBCOMMANDS.contains sub = true →
            ((∀ a ∈ args, ∀ p ∈ BLOCKED_ARG_PATTERNS, containsSeq p a = false) →
              validate_truthgit_args args = .ok ())
            ∧ ((∃ a ∈ args, ∃ p ∈ BLOCKED_ARG_PATTERNS, containsSeq p a = true) →
              ∃ q ∈ BLOCKED_ARG_PATTERNS, (∃ a ∈ args, containsSeq q a = true)
                ∧ validate_truthgit_args args = .error (.forbiddenPattern q))))
    ∧ validate_truthgit_args ["status".toList] = .ok ()
    ∧ validate_truthgit_args ["init".toList]
        = .error (.subcommandNotAllowed "init".toList)
    ∧ validate_truthgit_args ["verify".toList, "claim; rm -rf /".toList]
        = .error (.forbiddenPattern ";".toList) := by
  refine ⟨?_, ?_, rfl, rfl, rfl⟩
  · rintro rfl; rfl
  · rintro sub rest rfl
    have hmemiff : ALLOWED_TRUTHGIT_SUBCOMMANDS.contains sub = true
        ↔ sub ∈ ALLOWED_TRUTHGIT_SUBCOMMANDS := List.elem_iff
    constructor
    · intro hno
      have hnm : ¬ sub ∈ ALLOWED_TRUTHGIT_SUBCOMMANDS := by
        intro hm
        rw [hmemiff.mpr hm] at hno
        cases hno
      simp [validate_truthgit_args, hnm]
    · intro hyes
      have hm : sub ∈ ALLOWED_TRUTHGIT_SUBCOMMANDS := hmemiff.mp hyes
      constructor
      · intro hclean
        have hnone : findBlocked (sub :: rest) = none := by
          unfold findBlocked
          rw [List.findSome?_eq_none_iff]
          intro a ha
          rw [List.find?_eq_none]
          intro p hp
          rw [hclean a ha p hp]
          exact Bool.false_ne_true
        simp [validate_truthgit_args, hm, hnone]
      · rintro ⟨a, ha, p, hp, hc⟩
        cases hfb : findBlocked (sub :: rest) with
        | none =>
          exfalso
          unfold findBlocked at hfb
          rw [List.findSome?_eq_none_iff] at hfb
          have := List.find?_eq_none.mp (hfb a ha) p hp
          exact this hc
        | some q =>
          obtain ⟨a', ha', hfind⟩ := List.exists_of_findSome?_eq_some hfb
          have hq := List.find?_some hfind
          refine ⟨q, List.mem_of_find?_eq_some hfind, ⟨a', ha', hq⟩, ?_⟩
          simp [validate_truthgit_args, hm, hfb]

/-- Witness for C2: the empty vector and a clean allowlisted vector,
settled through the ordered-rules theorem. -/
theorem validate_truthgit_args_ordered_witness :
    validate_truthgit_args [] = .error .noSubcommand
    ∧ validate_truthgit_args ["log".toList, "-n".toList] = .ok () :=
  ⟨(validate_truthgit_args_ordered []).1 rfl,
    ((((validate_truthgit_args_ordered _).2.1 "log".toList ["-n".toList] rfl).2
      (by decide)).1) (by decide)⟩

/-- Counterexample to C4 as stated: `"cat"` is free of shell operators and
dangerous patterns, equals no allowlist entry exactly, and starts with no
entry as a literal prefix (the matching entry is `"cat "` with a trailing
space), yet the validator accepts it — because the source also accepts a
trimmed command equal to the whitespace-trimmed form of an entry. -/
theorem prefix_allowlist_cat_counterexample :
    SHELL_OPERATORS.all (fun op => ! containsSeq op (trimStr "cat".toList)) = true
    ∧ contains_dangerous_pattern "cat".toList = none
    ∧ ALLOWED_COMMAND_PREFIXES.all
        (fun p => ! p.isPrefixOf (trimStr "cat".toList)
          && ! (trimStr "cat".toList == p)) = true
    ∧ is_command_allowed "cat".toList = true
    ∧ (check_command_safety "cat".toList).is_dangerous = false := by
  decide

/-- C4 as amended: a command free of shell operators and dangerous
patterns passes `check_command_safety` exactly when its trimmed form
starts with an allowlist entry as a literal prefix or equals the
whitespace-trimmed form of an entry (which for trailing-space entries
like `"cat "` also admits the bare word, while `"category..."` still does
not match); otherwise it is rejected naming the leading token. -/
theorem prefix_allowlist_characterization (s : Str)
    (hops : SHELL_OPERATORS.all (fun op => ! containsSeq op (trimStr s)) = true)
    (hdp : contains_dangerous_pattern s = none) :
    ((check_command_safety s).is_dangerous = false
      ↔ ∃ p ∈ ALLOWED_COMMAND_PREFIXES,
          p.isPrefixOf (trimStr s) = true ∨ trimStr s = trimStr p)
    ∧ ((check_command_safety s).is_dangerous = true →
        (check_command_safety s).warning = some (.notAllowed (firstToken s))) := by
  have hanyop : SHELL_OPERATORS.any (fun op => containsSeq op (trimStr s)) = false := by
    rw [List.any_eq_false]
    intro x hx
    have hh := List.all_eq_true.mp hops x hx
    simp only [Bool.not_eq_true'] at hh
    simp [hh]
  have hcond : ¬ (SHELL_OPERATORS.any (fun op => containsSeq op (trimStr s)) = true) := by
    rw [hanyop]
    exact Bool.false_ne_true
  have hiff : is_command_allowed s = true
      ↔ ∃ p ∈ ALLOWED_COMMAND_PREFIXES,
          p.isPrefixOf (trimStr s) = true ∨ trimStr s = trimStr p := by
    unfold is_command_allowed
    rw [if_neg hcond, List.any_eq_true]
    constructor
    · rintro ⟨p, hp, hor⟩
      refine ⟨p, hp, ?_⟩
      rcases Bool.or_eq_true_iff.mp hor with h | h
      · exact Or.inl h
      · exact Or.inr (by simpa using h)
    · rintro ⟨p, hp, hor⟩
      refine ⟨p, hp, Bool.or_eq_true_iff.mpr ?_⟩
      rcases hor with h | h
      · exact Or.inl h
      · exact Or.inr (by simpa using h)
  have hcheck : check_command_safety s
      = (if ! is_command_allowed s then
          { is_dangerous := true, warning := some (.notAllowed (firstToken s)) }
        else { is_dangerous := false, warning := none }) := by
    unfold check_command_safety
    rw [hdp]
  cases hca : is_command_allowed s with
  | false =>
    rw [hca] at hcheck
    simp only [Bool.not_false, if_true] at hcheck
    rw [hcheck]
    constructor
    · constructor
      · intro h; cases h
      · intro hex
        rw [← hiff, hca] at hex
        cases hex
    · intro _; rfl
  | true =>
    rw [hca] at hcheck
    simp only [Bool.not_true, Bool.false_eq_true, if_false] at hcheck
    rw [hcheck]
    constructor
    · simp only [true_iff]
      exact hiff.mp hca
    · intro h; cases h

/-- Witness for C4's amended characterization: `"git status"` passes and
`"category x"` is rejected. -/
theorem prefix_allowlist_characterization_witness :
    (check_command_safety "git status".toList).is_dangerous = false
    ∧ (check_command_safety "category x".toList).is_dangerous = true :=
  ⟨(prefix_allowlist_characterization "git status".toList (by decide) (by decide)).1.mpr
      ⟨"git status".toList, by decide, Or.inl (by decide)⟩,
    by decide⟩

/-- Counterexample to C5 as stated: a truthgit run that exits successfully
with the invalid byte 0xFF on stdout makes `run_truthgit_command` fail
hard with the invalid-UTF-8 error instead of replacing the byte. -/
theorem run_truthgit_invalid_utf8_counterexample :
    utf8Valid [255] = false
    ∧ run_truthgit_command ["status".toList] (.completed (some 0) [255] [])
        = .error .invalidUtf8Output :=
  ⟨rfl, rfl⟩

/-- C5 as amended: `execute_shell` never fails on account of output bytes
(both streams are decoded lossily once the pre-spawn checks pass), and
`run_truthgit_command` decodes stderr lossily on a failed run — but a
successful run whose stdout is not valid UTF-8 is escalated to a hard
"Invalid UTF-8 output" error rather than replaced. -/
theorem output_decode_behavior :
    (∀ (cmd : Str) (code : Option Int) (out err : List Nat),
        contains_dangerous_pattern cmd = none → is_command_allowed cmd = true →
        ∃ r, execute_shell cmd (.completed code out err) = .ok r)
    ∧ (∀ (args : List Str) (code : Option Int) (out err : List Nat),
        validate_truthgit_args args = .ok () → statusSuccess code = false →
        run_truthgit_command args (.completed code out err)
          = .error (.truthgitFailed (lossyDecodeList err)))
    ∧ (∀ (args : List Str) (out err : List Nat),
        validate_truthgit_args args = .ok () → utf8Valid out = false →
        run_truthgit_command args (.completed (some 0) out err)
          = .error .invalidUtf8Output)
    ∧ (∀ (args : List Str) (out err : List Nat),
        validate_truthgit_args args = .ok () → utf8Valid out = true →
        run_truthgit_command args (.completed (some 0) out err)
          = .ok (lossyDecodeList out)) := by
  refine ⟨?_, ?_, ?_, ?_⟩
  · intro cmd code out err hdp hca
    refine ⟨{ stdout := lossyDecodeList out, stderr := lossyDecodeList err,
              exit_code := code.getD (-1), success := statusSuccess code }, ?_⟩
    simp [execute_shell, hdp, hca]
  · intro args code out err hv hsc
    simp [run_truthgit_command, hv, hsc]
  · intro args out err hv hu
    simp [run_truthgit_command, hv, hu, statusSuccess]
  · intro args out err hv hu
    simp [run_truthgit_command, hv, hu, statusSuccess]

/-- Witness for C5's amended theorem: a failed run reports lossy stderr,
a clean successful run returns decoded stdout. -/
theorem output_decode_behavior_witness :
    run_truthgit_command ["status".toList] (.completed (some 1) [] [104, 255])
      = .error (.truthgitFailed (lossyDecodeList [104, 255]))
    ∧ run_truthgit_command ["status".toList] (.completed (some 0) [104, 105] [])
      = .ok (lossyDecodeList [104, 105])
    ∧ lossyDecodeList [104, 255] = ['h', repl] :=
  ⟨output_decode_behavior.2.1 ["status".toList] (some 1) [] [104, 255] rfl rfl,
    output_decode_behavior.2.2.2 ["status".toList] [104, 105] [] rfl rfl,
    rfl⟩

/-- C6: once the pre-spawn checks pass, a process that exits with a
non-zero status is reported as an `ok` result with `success = false` and
the captured stderr; a spawn failure is a distinct error; and a missing
OS exit code becomes the sentinel -1. -/
theorem execute_shell_failure_semantics (command : Str)
    (hdp : contains_dangerous_pattern command = none)
    (hok : is_command_allowed command = true) :
    (∀ (c : Int), c ≠ 0 → ∀ (out err : List Nat),
        execute_shell command (.completed (some c) out err)
          = .ok { stdout := lossyDecodeList out, stderr := lossyDecodeList err,
                  exit_code := c, success := false })
    ∧ (∀ e, execute_shell command (.failure e) = .error (.spawnFailure e))
    ∧ (∀ (out err : List Nat),
        execute_shell command (.completed none out err)
          = .ok { stdout := lossyDecodeList out, stderr := lossyDecodeList err,
                  exit_code := -1, success := false }) := by
  refine ⟨?_, ?_, ?_⟩
  · intro c hc out err
    simp [execute_shell, hdp, hok, statusSuccess, hc]
  · intro e
    simp [execute_shell, hdp, hok]
  · intro out err
    simp [execute_shell, hdp, hok, statusSuccess]

/-- Witness for C6 at `"ls"`: non-zero exit 2 yields `ok` with
`success = false`, a spawn failure yields the distinct spawn error, and a
signal-killed process reports exit code -1. -/
theorem execute_shell_failure_semantics_witness :
    execute_shell "ls".toList (.completed (some 2) [104] [33])
      = .ok { stdout := lossyDecodeList [104], stderr := lossyDecodeList [33],
              exit_code := 2, success := false }
    ∧ execute_shell "ls".toList (.failure "No such file".toList)
      = .error (.spawnFailure "No such file".toList)
    ∧ execute_shell "ls".toList (.completed none [] [])
      = .ok { stdout := [], stderr := [], exit_code := -1, success := false } :=
  ⟨(execute_shell_failure_semantics "ls".toList rfl rfl).1 2 (by decide) [104] [33],
    (execute_shell_failure_semantics "ls".toList rfl rfl).2.1 "No such file".toList,
    (execute_shell_failure_semantics "ls".toList rfl rfl).2.2 [] []⟩

/-- C9: the read-only check and the executing entry point enforce the same
policy — `check_command_safety` flags a string exactly when
`execute_shell` refuses it with a pre-spawn validation error whatever the
spawn would do, and when a dangerous pattern is the cause both name the
same pattern. -/
theorem check_execute_policy_equiv (s : Str) :
    ((check_command_safety s).is_dangerous = true
      ↔ ∃ e, isPreSpawnError e = true ∧ ∀ outcome, execute_shell s outcome = .error e)
    ∧ (∀ p, contains_dangerous_pattern s = some p →
        (check_command_safety s).warning = some (.dangerousPattern p)
        ∧ ∀ outcome, execute_shell s outcome = .error (.dangerousPattern p)) := by
  constructor
  · cases hdp : contains_dangerous_pattern s with
    | some p =>
      constructor
      · intro _
        exact ⟨.dangerousPattern p, rfl, fun outcome => by simp [execute_shell, hdp]⟩
      · intro _
        simp [check_command_safety, hdp]
    | none =>
      cases hca : is_command_allowed s with
      | false =>
        constructor
        · intro _
          exact ⟨.notAllowed (firstToken s), rfl,
            fun outcome => by simp [execute_shell, hdp, hca]⟩
        · intro _
          simp [check_command_safety, hdp, hca]
      | true =>
        constructor
        · intro hdang
          exfalso
          simp [check_command_safety, hdp, hca] at hdang
        · rintro ⟨e, hpre, hall⟩
          exfalso
          have hspawn := hall (.completed (some 0) [] [])
          simp [execute_shell, hdp, hca] at hspawn
  · intro p hp
    exact ⟨by simp [check_command_safety, hp],
      fun outcome => by simp [execute_shell, hp]⟩

/-- Witness for C9: on `"sudo rm -rf /tmp"` both functions name the same
dangerous pattern `"rm -rf /"`. -/
theorem check_execute_policy_equiv_witness :
    (check_command_safety "sudo rm -rf /tmp".toList).warning
        = some (.dangerousPattern "rm -rf /".toList)
    ∧ execute_shell "sudo rm -rf /tmp".toList (.completed (some 0) [] [])
        = .error (.dangerousPattern "rm -rf /".toList) := by
  have h := (check_execute_policy_equiv "sudo rm -rf /tmp".toList).2
    "rm -rf /".toList (by decide)
  exact ⟨h.1, h.2 (.completed (some 0) [] [])⟩
